import Mathlib

/-!
Shallow embedding of the BoundedSum differentially-private accumulator
(differential_privacy/algorithms/bounded-sum.h) and proofs of the
specification claims about it.  Machine numerics of the parameter type T
are embedded as rationals together with an explicit NaN marker; external
collaborators that are not part of the source under study (ApproxBounds,
the Laplace mechanism builder, util helpers, proto containers) are either
modelled from the specification or kept as explicit oracle parameters.
-/

namespace DifferentialPrivacy

/-- A numeric input value of type T: either NaN or a finite number. -/
inductive DPValue where
  | nan : DPValue
  | num : ℚ → DPValue
  deriving DecidableEq

/-- Modelled from the spec: Clamp (from util.h, which is not under src)
restricts a value to the range from lower to upper. -/
def Clamp (lower upper x : ℚ) : ℚ := max lower (min x upper)

/-- Modelled from the spec: the external ApproxBounds component, a
logarithmic-bin histogram over input magnitudes with a positive and a
negative side of per-bin counts. -/
structure ApproxBounds where
  pos_bins : List ℚ
  neg_bins : List ℚ
  deriving DecidableEq

/-- Mirrors the NumPositiveBins accessor of ApproxBounds. -/
def ApproxBounds.numPositiveBins (ab : ApproxBounds) : Nat := ab.pos_bins.length

/-- Modelled from the spec: the serialized record of an ApproxBounds
histogram, holding its per-bin counts. -/
structure ApproxBoundsSummary where
  pos_bins : List ℚ := []
  neg_bins : List ℚ := []
  deriving DecidableEq

/-- Adds a delta to slot i of a bin vector, leaving the vector unchanged
when i is out of range. -/
def binAdd (l : List ℚ) (i : Nat) (d : ℚ) : List ℚ := l.set i (l.getD i 0 + d)

/-- Modelled from the spec: ApproxBounds.AddEntry classifies a value into
the magnitude bin given by binOf and increments the count of that bin on
the positive or negative side. -/
def ApproxBounds.addEntry (binOf : ℚ → Nat) (ab : ApproxBounds) (x : ℚ) : ApproxBounds :=
  if 0 ≤ x then { ab with pos_bins := binAdd ab.pos_bins (binOf |x|) 1 }
  else { ab with neg_bins := binAdd ab.neg_bins (binOf |x|) 1 }

/-- Modelled from the spec: ApproxBounds.AddToPartialSums adds the value
into the slot of the referenced partial-sum vector keyed by the magnitude
bin of the value. -/
def ApproxBounds.addToPartialSums (binOf : ℚ → Nat) (v : List ℚ) (x : ℚ) : List ℚ :=
  binAdd v (binOf |x|) x

/-- Modelled from the spec: ApproxBounds.Serialize emits the per-bin
counts of the histogram. -/
def ApproxBounds.serialize (ab : ApproxBounds) : ApproxBoundsSummary :=
  { pos_bins := ab.pos_bins, neg_bins := ab.neg_bins }

/-- All errors surfaced by this core are invalid-argument conditions
carrying a human-readable message. -/
inductive DPError where
  | invalidArgument : String → DPError
  deriving DecidableEq

/-- Modelled from the spec: ApproxBounds.Merge combines another serialized
histogram into this one; histogram configurations must match, so the call
fails when the bin counts differ, and otherwise adds the bins
element-wise. -/
def ApproxBounds.merge (ab : ApproxBounds) (s : ApproxBoundsSummary) :
    Except DPError ApproxBounds :=
  if ab.pos_bins.length = s.pos_bins.length ∧ ab.neg_bins.length = s.neg_bins.length then
    Except.ok { pos_bins := List.zipWith (· + ·) ab.pos_bins s.pos_bins,
                neg_bins := List.zipWith (· + ·) ab.neg_bins s.neg_bins }
  else
    Except.error (DPError.invalidArgument
      "Merged ApproxBounds must have the same amount of bins.")

/-- Modelled from the spec: ApproxBounds.ResetState zeroes the histogram
bins, keeping the bin configuration. -/
def ApproxBounds.resetState (ab : ApproxBounds) : ApproxBounds :=
  { pos_bins := List.replicate ab.pos_bins.length 0,
    neg_bins := List.replicate ab.neg_bins.length 0 }

/-- A built Laplace mechanism, recording the epsilon and the sensitivity
it was calibrated with. -/
structure Mechanism where
  epsilon : ℚ
  sensitivity : ℚ
  deriving DecidableEq

/-- Modelled from the spec: the external LaplaceMechanism builder given an
epsilon and a sensitivity; construction fails on a degenerate epsilon. -/
def laplaceBuild (eps sensitivity : ℚ) : Except DPError Mechanism :=
  if eps ≤ 0 then Except.error (DPError.invalidArgument "Epsilon must be positive.")
  else Except.ok { epsilon := eps, sensitivity := sensitivity }

/-- The state of a BoundedSum instance: partial sums, clamping bounds,
epsilon, the lazily built mechanism, and the optional ApproxBounds
component whose presence selects auto-bounds mode. -/
structure BoundedSum where
  epsilon : ℚ
  lower : ℚ
  upper : ℚ
  pos_sum : List ℚ
  neg_sum : List ℚ
  mechanism : Option Mechanism
  approx_bounds : Option ApproxBounds
  deriving DecidableEq

/-- Mirrors the BoundedSum constructor: with an ApproxBounds component the
partial-sum vectors get one slot per positive histogram bin, otherwise a
single already-clamped running slot. -/
def BoundedSum.init (eps lower upper : ℚ) (mech : Option Mechanism)
    (ab : Option ApproxBounds) : BoundedSum :=
  match ab with
  | some a =>
      { epsilon := eps, lower := lower, upper := upper,
        pos_sum := List.replicate a.numPositiveBins 0,
        neg_sum := List.replicate a.numPositiveBins 0,
        mechanism := mech, approx_bounds := some a }
  | none =>
      { epsilon := eps, lower := lower, upper := upper,
        pos_sum := [0], neg_sum := [],
        mechanism := mech, approx_bounds := none }

/-- The message issued by CheckLowerBound on a pathological lower bound. -/
def lowerBoundMsg : String :=
  "Lower bound cannot be higher in magnitude than the max numeric limit. If manually bounding, please increase it by at least 1."

/-- Mirrors BoundedSum.Builder.CheckLowerBound, with tmax standing for the
numeric limit max of T. -/
def checkLowerBound (tmax lower : ℚ) : Except DPError Unit :=
  if lower < -1 * tmax then Except.error (DPError.invalidArgument lowerBoundMsg)
  else Except.ok ()

/-- Builder configuration: epsilon, the numeric limit of T, the optional
manual bounds and the optional ApproxBounds component. -/
structure BuilderConfig where
  epsilon : ℚ
  tmax : ℚ
  lowerOpt : Option ℚ
  upperOpt : Option ℚ
  approxOpt : Option ApproxBounds

/-- Mirrors Builder.BuildAlgorithm: with both manual bounds it checks the
lower bound and eagerly builds the mechanism with sensitivity equal to the
larger bound magnitude; with neither bound it requires an ApproxBounds
component (BoundsSetup is modelled from the spec, bounded-algorithm.h not
being under src); a single bound is rejected. -/
def buildAlgorithm (c : BuilderConfig) : Except DPError BoundedSum :=
  match c.lowerOpt, c.upperOpt with
  | some lo, some hi =>
      match checkLowerBound c.tmax lo with
      | Except.error e => Except.error e
      | Except.ok _ =>
          match laplaceBuild c.epsilon (max |lo| |hi|) with
          | Except.error e => Except.error e
          | Except.ok m => Except.ok (BoundedSum.init c.epsilon lo hi (some m) none)
  | none, none =>
      match c.approxOpt with
      | none => Except.error (DPError.invalidArgument
          "ApproxBounds must be set when bounds are not set manually.")
      | some ab => Except.ok (BoundedSum.init c.epsilon 0 0 none (some ab))
  | _, _ => Except.error (DPError.invalidArgument
      "Lower and upper bounds must both be set or both be unset.")

/-- Mirrors BoundedSum.AddEntry: NaN is a no-op; with manual bounds the
value is clamped and added to the single running slot; in auto mode the
value feeds the histogram and the matching partial-sum vector. -/
def BoundedSum.addEntry (binOf : ℚ → Nat) (s : BoundedSum) (t : DPValue) : BoundedSum :=
  match t with
  | DPValue.nan => s
  | DPValue.num x =>
      match s.approx_bounds with
      | none =>
          { s with pos_sum := s.pos_sum.set 0 (s.pos_sum.getD 0 0 + Clamp s.lower s.upper x) }
      | some ab =>
          if 0 ≤ x then
            { s with approx_bounds := some (ab.addEntry binOf x),
                     pos_sum := ApproxBounds.addToPartialSums binOf s.pos_sum x }
          else
            { s with approx_bounds := some (ab.addEntry binOf x),
                     neg_sum := ApproxBounds.addToPartialSums binOf s.neg_sum x }

/-- The pre-noise sum read by GenerateResult in manual mode: the single
running slot of pos_sum. -/
def BoundedSum.preNoiseSumManual (s : BoundedSum) : ℚ := s.pos_sum.getD 0 0

/-- Mirrors BoundedSum.ResetState: zero the partial sums; in auto mode
also reset the histogram and discard the mechanism. -/
def BoundedSum.resetState (s : BoundedSum) : BoundedSum :=
  match s.approx_bounds with
  | some ab =>
      { s with pos_sum := List.replicate s.pos_sum.length 0,
               neg_sum := List.replicate s.neg_sum.length 0,
               approx_bounds := some ab.resetState,
               mechanism := none }
  | none =>
      { s with pos_sum := List.replicate s.pos_sum.length 0,
               neg_sum := List.replicate s.neg_sum.length 0 }

/-- The BoundedSumSummary proto record: ordered partial sums and the
embedded histogram record (a default-initialized sub-message when the
instance has no histogram). -/
structure BoundedSumSummary where
  pos_sum : List ℚ
  neg_sum : List ℚ
  bounds_summary : ApproxBoundsSummary
  deriving DecidableEq

/-- The payload of a type-tagged Summary container: bounded-sum data, or
data of some other type that does not unpack as a BoundedSumSummary. -/
inductive SummaryData where
  | bs : BoundedSumSummary → SummaryData
  | other : SummaryData
  deriving DecidableEq

/-- The Summary container: optional type-tagged data. -/
structure Summary where
  data : Option SummaryData
  deriving DecidableEq

/-- Mirrors BoundedSum.Serialize: emit pos_sum and neg_sum in order and,
in auto mode, the serialized histogram embedded as bounds_summary. -/
def BoundedSum.serialize (s : BoundedSum) : Summary :=
  { data := some (SummaryData.bs
      { pos_sum := s.pos_sum, neg_sum := s.neg_sum,
        bounds_summary :=
          match s.approx_bounds with
          | some ab => ab.serialize
          | none => {} }) }

/-- Mirrors BoundedSum.Merge, returning the status together with the
post-call state: fail if the summary has no data, cannot be unpacked, or
has mismatching partial-sum lengths; otherwise add pos_sum and neg_sum
element-wise and, in auto mode, merge the embedded histogram afterwards.
The element-wise additions happen before the histogram merge, exactly as
in the source. -/
def BoundedSum.merge (s : BoundedSum) (sm : Summary) : Except DPError Unit × BoundedSum :=
  match sm.data with
  | none => (Except.error (DPError.invalidArgument
      "Cannot merge summary with no bounded sum data."), s)
  | some SummaryData.other => (Except.error (DPError.invalidArgument
      "Bounded sum summary unable to be unpacked."), s)
  | some (SummaryData.bs bss) =>
      if s.pos_sum.length = bss.pos_sum.length ∧ s.neg_sum.length = bss.neg_sum.length then
        let s1 := { s with pos_sum := List.zipWith (· + ·) s.pos_sum bss.pos_sum,
                           neg_sum := List.zipWith (· + ·) s.neg_sum bss.neg_sum }
        match s.approx_bounds with
        | none => (Except.ok (), s1)
        | some ab =>
            match ab.merge bss.bounds_summary with
            | Except.error e => (Except.error e, s1)
            | Except.ok ab2 => (Except.ok (), { s1 with approx_bounds := some ab2 })
      else
        (Except.error (DPError.invalidArgument
          "Merged BoundedSum must have the same amount of partial sum values as this BoundedSum."), s)

/-- A confidence interval, as returned by the mechanism. -/
structure ConfidenceInterval where
  low : ℚ
  high : ℚ
  deriving DecidableEq

/-- The Output record: the noised value plus the optional error-report
fields (bounding report as the pair of final bounds, and the noise
confidence interval). -/
structure Output where
  value : Option ℚ := none
  bounding_report : Option (ℚ × ℚ) := none
  noise_confidence_interval : Option ConfidenceInterval := none
  deriving DecidableEq

/-- The empty Output returned on a zero privacy budget. -/
def Output.empty : Output := {}

/-- Modelled from the spec: the fixed default confidence level constant
(from util, not under src). -/
def kDefaultConfidenceLevel : ℚ := 95 / 100

/-- Modelled from the spec: std::round applied to the noised sum for
integral T — round half away from zero. -/
def cppRound (x : ℚ) : ℚ :=
  if 0 ≤ x then (⌊x + 1 / 2⌋ : ℤ) else -(⌊-x + 1 / 2⌋ : ℤ)

/-- An external call performed during GenerateResult, recorded so that
budget use and mechanism construction are observable. -/
inductive Event where
  | approxGen : ℚ → Event
  | mechBuild : ℚ → ℚ → Event
  | noiseCI : ℚ → ℚ → Event
  | addNoise : ℚ → ℚ → Event
  deriving DecidableEq

/-- Oracle parameters standing for the behavior of the external
collaborators: the numeric limit and integrality of T, the ApproxBounds
result generation and reconstruction functions, the bounding report, the
noise of the mechanism and its confidence interval. -/
structure Oracles where
  tmax : ℚ
  isIntegral : Bool
  approxGenerateResult : ApproxBounds → ℚ → Except DPError (ℚ × ℚ)
  computeFromPartials : List ℚ → List ℚ → ℚ → ℚ → ℚ
  getBoundingReport : ApproxBounds → ℚ → ℚ → ℚ × ℚ
  addNoise : Mechanism → ℚ → ℚ → ℚ
  mechNoiseCI : Mechanism → ℚ → ℚ → Except DPError ConfidenceInterval

/-- Mirrors BoundedSum.NoiseConfidenceIntervalImpl: fails when the
mechanism has not been constructed yet, otherwise delegates to the
mechanism. -/
def BoundedSum.noiseCIImpl (o : Oracles) (s : BoundedSum)
    (confidence_level privacy_budget : ℚ) : Except DPError ConfidenceInterval :=
  match s.mechanism with
  | none => Except.error (DPError.invalidArgument
      "Mechanism not yet constructed. Try getting noise confidence interval after generating result.")
  | some m => o.mechNoiseCI m confidence_level privacy_budget

/-- Mirrors BoundedSum.NoiseConfidenceInterval: refuses in auto-bounds
mode, otherwise delegates to the implementation. -/
def BoundedSum.noiseConfidenceInterval (o : Oracles) (s : BoundedSum)
    (confidence_level privacy_budget : ℚ) : Except DPError ConfidenceInterval :=
  match s.approx_bounds with
  | some _ => Except.error (DPError.invalidArgument
      "NoiseConfidenceInterval changes per result generation for automatically-determined sensitivity.")
  | none => s.noiseCIImpl o confidence_level privacy_budget

/-- The tail of GenerateResult after the mechanism is available (source
lines 155 to 170): attach the noise confidence interval when it is
available, add noise with the remaining budget, round for integral T. -/
def BoundedSum.finishWithMechanism (o : Oracles) (s : BoundedSum) (m : Mechanism)
    (sum remaining_budget : ℚ) (report : Option (ℚ × ℚ)) (tr : List Event) :
    Except DPError Output × BoundedSum × List Event :=
  let ci := s.noiseCIImpl o kDefaultConfidenceLevel remaining_budget
  let noisy := o.addNoise m sum remaining_budget
  let value := if o.isIntegral then cppRound noisy else noisy
  (Except.ok
    { value := some value,
      bounding_report := report,
      noise_confidence_interval :=
        match ci with
        | Except.ok c => some c
        | Except.error _ => none },
   s,
   tr ++ [Event.noiseCI kDefaultConfidenceLevel remaining_budget,
          Event.addNoise sum remaining_budget])

/-- The common tail of GenerateResult from the BuildMechanism call on
(source lines 151 to 170): construct the mechanism when absent, with
sensitivity the larger bound magnitude, then finish. -/
def BoundedSum.finishResult (o : Oracles) (s : BoundedSum)
    (sum remaining_budget : ℚ) (report : Option (ℚ × ℚ)) (tr : List Event) :
    Except DPError Output × BoundedSum × List Event :=
  match s.mechanism with
  | some m => s.finishWithMechanism o m sum remaining_budget report tr
  | none =>
      let tr2 := tr ++ [Event.mechBuild s.epsilon (max |s.lower| |s.upper|)]
      match laplaceBuild s.epsilon (max |s.lower| |s.upper|) with
      | Except.error e => (Except.error e, s, tr2)
      | Except.ok m =>
          BoundedSum.finishWithMechanism o { s with mechanism := some m } m
            sum remaining_budget report tr2

/-- Mirrors BoundedSum.GenerateResult: a zero budget returns the empty
output at once; in auto mode half the budget infers bounds, the inferred
lower bound is re-checked, the bounds are symmetrized, the sum is
reconstructed from the partials and the mechanism is invalidated; in
manual mode the sum is the single running slot; then the mechanism is
built if needed, the confidence interval attached and noise added with
the remaining budget. -/
def BoundedSum.generateResult (o : Oracles) (s : BoundedSum) (privacy_budget : ℚ) :
    Except DPError Output × BoundedSum × List Event :=
  if privacy_budget = 0 then (Except.ok Output.empty, s, [])
  else
    match s.approx_bounds with
    | some ab =>
        let bounds_budget := privacy_budget / 2
        let remaining_budget := privacy_budget - bounds_budget
        match o.approxGenerateResult ab bounds_budget with
        | Except.error e => (Except.error e, s, [Event.approxGen bounds_budget])
        | Except.ok (lower, upper) =>
            match checkLowerBound o.tmax lower with
            | Except.error e => (Except.error e, s, [Event.approxGen bounds_budget])
            | Except.ok _ =>
                let lo := min lower (-1 * upper)
                let hi := max upper (-1 * lower)
                let sum := o.computeFromPartials s.pos_sum s.neg_sum lo hi
                let s1 := { s with lower := lo, upper := hi, mechanism := none }
                let report := o.getBoundingReport ab lo hi
                s1.finishResult o sum remaining_budget (some report)
                  [Event.approxGen bounds_budget]
    | none =>
        s.finishResult o s.preNoiseSumManual privacy_budget none []

/-- The clamped contribution of one input value: zero for NaN, the
clamped value otherwise. -/
def clampContribution (lower upper : ℚ) : DPValue → ℚ
  | DPValue.nan => 0
  | DPValue.num x => Clamp lower upper x

/-- Sum of the clamped contributions of a sequence of input values. -/
def clampedSum (lower upper : ℚ) (vs : List DPValue) : ℚ :=
  (vs.map (clampContribution lower upper)).sum

/-- Two instances are identically configured for merging: equal
partial-sum vector lengths and, in auto mode, equal histogram bin
configurations; mixed modes never qualify. -/
def sameShape (A B : BoundedSum) : Prop :=
  A.pos_sum.length = B.pos_sum.length ∧ A.neg_sum.length = B.neg_sum.length ∧
  match A.approx_bounds, B.approx_bounds with
  | some a, some b => a.pos_bins.length = b.pos_bins.length
      ∧ a.neg_bins.length = b.neg_bins.length
  | none, none => True
  | _, _ => False

/-- A one-bin histogram used in concrete evaluations. -/
def exAb : ApproxBounds := { pos_bins := [0], neg_bins := [0] }

/-- A concrete auto-mode instance over the one-bin histogram. -/
def exAutoState : BoundedSum :=
  { epsilon := 1, lower := 0, upper := 0, pos_sum := [0], neg_sum := [0],
    mechanism := none, approx_bounds := some exAb }

/-- A payload whose partial-sum lengths match a one-slot instance but
whose embedded histogram record has no bins. -/
def exBadSummary : Summary :=
  { data := some (SummaryData.bs
      { pos_sum := [1], neg_sum := [2],
        bounds_summary := { pos_bins := [], neg_bins := [] } }) }

/-- A concrete built mechanism. -/
def exMech : Mechanism := { epsilon := 1, sensitivity := 10 }

/-- A concrete manual-mode instance with a built mechanism. -/
def exManual : BoundedSum := BoundedSum.init 1 0 10 (some exMech) none

/-- A second concrete manual-mode instance with different bounds. -/
def exManual2 : BoundedSum := BoundedSum.init 1 (-5) 5 none none

/-- A trivial bin classifier for concrete evaluations. -/
def binOf0 : ℚ → Nat := fun _ => 0

/-- Concrete oracle functions used in evaluations: inferred bounds
(-3, 5), reconstructed sum 7, noise the identity. -/
def oracleEx : Oracles :=
  { tmax := 1000, isIntegral := false,
    approxGenerateResult := fun _ _ => Except.ok (-3, 5),
    computeFromPartials := fun _ _ _ _ => 7,
    getBoundingReport := fun _ lo hi => (lo, hi),
    addNoise := fun _ v _ => v,
    mechNoiseCI := fun _ _ _ => Except.ok { low := 0, high := 0 } }

/-- Concrete oracle functions whose inferred lower bound has a
pathological magnitude. -/
def oracleBad : Oracles :=
  { oracleEx with approxGenerateResult := fun _ _ => Except.ok (-2000, 5) }

/-- A concrete builder configuration with both bounds set and a
pathological lower bound. -/
def cfgBad : BuilderConfig :=
  { epsilon := 1, tmax := 1000, lowerOpt := some (-2000), upperOpt := some 5,
    approxOpt := none }

/-- Adding a NaN entry is a no-op on the whole state. -/
theorem addEntry_nan (binOf : ℚ → Nat) (s : BoundedSum) :
    s.addEntry binOf DPValue.nan = s := rfl

/-- Folding AddEntry over a manual-mode record accumulates the clamped
sum in the single slot and changes nothing else. -/
theorem foldl_addEntry_manual (binOf : ℚ → Nat) (eps lower upper : ℚ)
    (m : Option Mechanism) (vs : List DPValue) (a : ℚ) :
    List.foldl (BoundedSum.addEntry binOf)
      { epsilon := eps, lower := lower, upper := upper, pos_sum := [a], neg_sum := [],
        mechanism := m, approx_bounds := none } vs
    = { epsilon := eps, lower := lower, upper := upper,
        pos_sum := [a + clampedSum lower upper vs], neg_sum := [],
        mechanism := m, approx_bounds := none } := by
  induction vs generalizing a with
  | nil => simp [clampedSum]
  | cons v t ih =>
      cases v with
      | nan =>
          rw [List.foldl_cons, addEntry_nan, ih]
          simp [clampedSum, clampContribution]
      | num x =>
          rw [List.foldl_cons]
          show List.foldl (BoundedSum.addEntry binOf)
            ({ epsilon := eps, lower := lower, upper := upper,
               pos_sum := [a + Clamp lower upper x], neg_sum := [], mechanism := m,
               approx_bounds := none } : BoundedSum) t = _
          rw [ih]
          simp [clampedSum, clampContribution, add_assoc]

/-- C1: in manual-bounds mode, feeding any sequence of values through
AddEntry makes the pre-noise sum read by GenerateResult equal the sum of
clamp(value, lower, upper) over the non-NaN entries, every NaN entry
contributing 0 and leaving the accumulator state unchanged. -/
theorem manual_pre_noise_sum_eq_clamped_sum (binOf : ℚ → Nat) (eps lower upper : ℚ)
    (m : Option Mechanism) (vs : List DPValue) :
    (List.foldl (BoundedSum.addEntry binOf)
        (BoundedSum.init eps lower upper m none) vs).preNoiseSumManual
      = clampedSum lower upper vs
    ∧ ∀ s : BoundedSum, s.addEntry binOf DPValue.nan = s := by
  constructor
  · show (List.foldl (BoundedSum.addEntry binOf)
      { epsilon := eps, lower := lower, upper := upper, pos_sum := [0], neg_sum := [],
        mechanism := m, approx_bounds := none } vs).preNoiseSumManual = _
    rw [foldl_addEntry_manual]
    simp [BoundedSum.preNoiseSumManual]
  · intro s; rfl

/-- C4: GenerateResult with zero privacy budget returns the empty output,
leaves the state unchanged and performs no external computation (no bound
inference, no mechanism construction, no noise addition). -/
theorem generate_result_zero_budget (o : Oracles) (s : BoundedSum) :
    s.generateResult o 0 = (Except.ok Output.empty, s, []) := by
  simp [BoundedSum.generateResult]

/-- C8: NoiseConfidenceInterval always fails with an invalid-argument
error in auto-bounds mode; in manual-bounds mode it fails with an
invalid-argument error when the mechanism has not been built yet and
otherwise returns the confidence interval of the mechanism. -/
theorem noise_ci_manual_only (o : Oracles) (s : BoundedSum) (cl pb : ℚ) :
    (∀ ab, s.approx_bounds = some ab →
        s.noiseConfidenceInterval o cl pb = Except.error (DPError.invalidArgument
          "NoiseConfidenceInterval changes per result generation for automatically-determined sensitivity."))
    ∧ (s.approx_bounds = none →
        (s.mechanism = none →
          s.noiseConfidenceInterval o cl pb = Except.error (DPError.invalidArgument
            "Mechanism not yet constructed. Try getting noise confidence interval after generating result."))
        ∧ ∀ m, s.mechanism = some m →
            s.noiseConfidenceInterval o cl pb = o.mechNoiseCI m cl pb) := by
  refine ⟨fun ab hab => ?_, fun hnone => ⟨fun hm => ?_, fun m hm => ?_⟩⟩
  · simp [BoundedSum.noiseConfidenceInterval, hab]
  · simp [BoundedSum.noiseConfidenceInterval, hnone, BoundedSum.noiseCIImpl, hm]
  · simp [BoundedSum.noiseConfidenceInterval, hnone, BoundedSum.noiseCIImpl, hm]

/-- Witness for C8: on a concrete manual-mode instance with a built
mechanism, the accessor returns the confidence interval of the
mechanism. -/
theorem noise_ci_manual_only_witness :
    exManual.approx_bounds = none ∧ exManual.mechanism = some exMech
    ∧ exManual.noiseConfidenceInterval oracleEx 1 1 = oracleEx.mechNoiseCI exMech 1 1 :=
  ⟨rfl, rfl, ((noise_ci_manual_only oracleEx exManual 1 1).2 rfl).2 exMech rfl⟩

/-- C2 counterexample: a payload whose partial-sum lengths match but whose
embedded histogram record has a different bin configuration makes Merge
return an error after pos_sum and neg_sum were already updated, so the
failed call does change the state. -/
theorem merge_error_partial_state_cex :
    (BoundedSum.merge exAutoState exBadSummary).1
      = Except.error (DPError.invalidArgument
          "Merged ApproxBounds must have the same amount of bins.")
    ∧ (BoundedSum.merge exAutoState exBadSummary).2 ≠ exAutoState := by
  constructor
  · rfl
  · intro h
    have h2 := congrArg (fun st => st.pos_sum) h
    simp [BoundedSum.merge, exAutoState, exBadSummary, exAb, ApproxBounds.merge] at h2

/-- C2 (amended): whenever Merge fails one of its three upfront checks
(no data, undecodable data, mismatched partial-sum lengths) the state is
unchanged, and in manual mode every failing Merge leaves the state
unchanged; only an auto-mode failure of the embedded histogram merge can
leave the partial sums already updated. -/
theorem merge_upfront_error_leaves_state (s : BoundedSum) (sm : Summary) :
    ((sm.data = none ∨ sm.data = some SummaryData.other
        ∨ ∃ bss, sm.data = some (SummaryData.bs bss)
            ∧ ¬(s.pos_sum.length = bss.pos_sum.length
                ∧ s.neg_sum.length = bss.neg_sum.length)) →
      (BoundedSum.merge s sm).1 ≠ Except.ok () ∧ (BoundedSum.merge s sm).2 = s)
    ∧ (s.approx_bounds = none → (BoundedSum.merge s sm).1 ≠ Except.ok () →
        (BoundedSum.merge s sm).2 = s) := by
  constructor
  · rintro (hd | hd | ⟨bss, hd, hlen⟩)
    · simp [BoundedSum.merge, hd]
    · simp [BoundedSum.merge, hd]
    · simp [BoundedSum.merge, hd, hlen]
  · intro hnone herr
    rcases hsm : sm.data with _ | d
    · simp [BoundedSum.merge, hsm]
    · rcases d with bss | _
      · by_cases hlen : s.pos_sum.length = bss.pos_sum.length
            ∧ s.neg_sum.length = bss.neg_sum.length
        · exfalso
          apply herr
          simp [BoundedSum.merge, hsm, hlen, hnone]
        · simp [BoundedSum.merge, hsm, hlen]
      · simp [BoundedSum.merge, hsm]

/-- Witness for C2: a summary with no data makes Merge fail and leaves a
concrete instance unchanged. -/
theorem merge_upfront_error_leaves_state_witness :
    (BoundedSum.merge exAutoState { data := none }).1 ≠ Except.ok ()
    ∧ (BoundedSum.merge exAutoState { data := none }).2 = exAutoState :=
  (merge_upfront_error_leaves_state exAutoState { data := none }).1 (Or.inl rfl)

/-- Adding a vector element-wise onto a zero vector of matching length
gives back the vector. -/
theorem zipWith_add_replicate_zero (l : List ℚ) :
    List.zipWith (· + ·) (List.replicate l.length (0 : ℚ)) l = l := by
  induction l with
  | nil => rfl
  | cons a t ih => simp [List.replicate_succ, ih]

/-- C5: Serialize, then Merge into the zeroed (reset) instance of the
same configuration, then Serialize again reproduces the payload exactly,
partial sums and embedded histogram record included. -/
theorem serialize_merge_roundtrip (x : BoundedSum) :
    (BoundedSum.merge x.resetState x.serialize).1 = Except.ok ()
    ∧ (BoundedSum.merge x.resetState x.serialize).2.serialize = x.serialize := by
  rcases hx : x.approx_bounds with _ | ab
  · constructor <;>
      simp [BoundedSum.merge, BoundedSum.serialize, BoundedSum.resetState, hx,
        zipWith_add_replicate_zero]
  · constructor <;>
      simp [BoundedSum.merge, BoundedSum.serialize, BoundedSum.resetState, hx,
        ApproxBounds.merge, ApproxBounds.serialize, ApproxBounds.resetState,
        zipWith_add_replicate_zero]

/-- Element-wise rational addition of lists is commutative. -/
theorem zipWith_add_comm (l1 l2 : List ℚ) :
    List.zipWith (· + ·) l1 l2 = List.zipWith (· + ·) l2 l1 := by
  induction l1 generalizing l2 with
  | nil => cases l2 <;> rfl
  | cons a t ih =>
      cases l2 with
      | nil => rfl
      | cons b u => simp [ih, add_comm]

/-- The clamped sum of a concatenation splits into the two clamped
sums. -/
theorem clampedSum_append (lower upper : ℚ) (xs ys : List DPValue) :
    clampedSum lower upper (xs ++ ys)
      = clampedSum lower upper xs + clampedSum lower upper ys := by
  simp [clampedSum]

/-- The constructor with no ApproxBounds yields the manual-mode record
with a single zeroed slot. -/
theorem init_manual_eq (eps lower upper : ℚ) (m : Option Mechanism) :
    BoundedSum.init eps lower upper m none
      = { epsilon := eps, lower := lower, upper := upper, pos_sum := [0], neg_sum := [],
          mechanism := m, approx_bounds := none } := rfl

/-- C6: a successful Merge adds pos_sum and neg_sum element-wise, merging
identically shaped shards is commutative on the partial-sum state, and in
manual mode the merged pre-noise sum equals that of one accumulator that
received all entries of both shards. -/
theorem merge_adds_elementwise_commutative :
    (∀ (s : BoundedSum) (sm : Summary) (bss : BoundedSumSummary),
        sm.data = some (SummaryData.bs bss) →
        (BoundedSum.merge s sm).1 = Except.ok () →
        (BoundedSum.merge s sm).2.pos_sum = List.zipWith (· + ·) s.pos_sum bss.pos_sum
        ∧ (BoundedSum.merge s sm).2.neg_sum = List.zipWith (· + ·) s.neg_sum bss.neg_sum)
    ∧ (∀ A B : BoundedSum, sameShape A B →
        (BoundedSum.merge A B.serialize).1 = Except.ok ()
        ∧ (BoundedSum.merge A B.serialize).2.pos_sum
            = (BoundedSum.merge B A.serialize).2.pos_sum
        ∧ (BoundedSum.merge A B.serialize).2.neg_sum
            = (BoundedSum.merge B A.serialize).2.neg_sum)
    ∧ (∀ (binOf : ℚ → Nat) (eps lower upper : ℚ) (m m2 : Option Mechanism)
          (xs ys : List DPValue),
        (BoundedSum.merge
            (List.foldl (BoundedSum.addEntry binOf)
              (BoundedSum.init eps lower upper m none) xs)
            (BoundedSum.serialize
              (List.foldl (BoundedSum.addEntry binOf)
                (BoundedSum.init eps lower upper m2 none) ys))).2.preNoiseSumManual
          = (List.foldl (BoundedSum.addEntry binOf)
              (BoundedSum.init eps lower upper m none) (xs ++ ys)).preNoiseSumManual) := by
  refine ⟨?_, ?_, ?_⟩
  · intro s sm bss hd hok
    by_cases hlen : s.pos_sum.length = bss.pos_sum.length
        ∧ s.neg_sum.length = bss.neg_sum.length
    · rcases ha : s.approx_bounds with _ | ab
      · constructor <;> simp [BoundedSum.merge, hd, hlen, ha]
      · rcases hm : ab.merge bss.bounds_summary with e | ab2
        · exfalso; simp [BoundedSum.merge, hd, hlen, ha, hm] at hok
        · constructor <;> simp [BoundedSum.merge, hd, hlen, ha, hm]
    · exfalso; simp [BoundedSum.merge, hd, hlen] at hok
  · intro A B hshape
    obtain ⟨hp, hn, hmm⟩ := hshape
    rcases hA : A.approx_bounds with _ | a <;> rcases hB : B.approx_bounds with _ | b <;>
      simp only [hA, hB] at hmm
    · refine ⟨?_, ?_, ?_⟩
      · simp [BoundedSum.merge, BoundedSum.serialize, hA, hB, hp, hn]
      · simp [BoundedSum.merge, BoundedSum.serialize, hA, hB, hp, hn]
        exact zipWith_add_comm _ _
      · simp [BoundedSum.merge, BoundedSum.serialize, hA, hB, hp, hn]
        exact zipWith_add_comm _ _
    · obtain ⟨hbp, hbn⟩ := hmm
      refine ⟨?_, ?_, ?_⟩
      · simp [BoundedSum.merge, BoundedSum.serialize, hA, hB, hp, hn,
          ApproxBounds.merge, ApproxBounds.serialize, hbp, hbn]
      · simp [BoundedSum.merge, BoundedSum.serialize, hA, hB, hp, hn,
          ApproxBounds.merge, ApproxBounds.serialize, hbp, hbn]
        exact zipWith_add_comm _ _
      · simp [BoundedSum.merge, BoundedSum.serialize, hA, hB, hp, hn,
          ApproxBounds.merge, ApproxBounds.serialize, hbp, hbn]
        exact zipWith_add_comm _ _
  · intro binOf eps lower upper m m2 xs ys
    rw [init_manual_eq, init_manual_eq, foldl_addEntry_manual, foldl_addEntry_manual,
      foldl_addEntry_manual]
    simp [BoundedSum.merge, BoundedSum.serialize, BoundedSum.preNoiseSumManual,
      clampedSum_append, add_assoc]

/-- Witness for C6: two concrete identically shaped manual instances
merge successfully and commutatively. -/
theorem merge_commutative_witness :
    sameShape exManual exManual2
    ∧ (BoundedSum.merge exManual exManual2.serialize).1 = Except.ok ()
    ∧ (BoundedSum.merge exManual exManual2.serialize).2.pos_sum
        = (BoundedSum.merge exManual2 exManual.serialize).2.pos_sum := by
  have hs : sameShape exManual exManual2 := ⟨rfl, rfl, trivial⟩
  exact ⟨hs, (merge_adds_elementwise_commutative.2.1 exManual exManual2 hs).1,
    (merge_adds_elementwise_commutative.2.1 exManual exManual2 hs).2.1⟩

/-- C10 counterexample: on an auto-mode instance, a payload that carries
data, decodes as bounded-sum data and has matching pos_sum and neg_sum
lengths is nevertheless rejected by Merge, because the embedded
histogram merge is a fourth validation beyond the three listed checks. -/
theorem merge_validates_histogram_cex :
    (∃ bss, exBadSummary.data = some (SummaryData.bs bss)
      ∧ exAutoState.pos_sum.length = bss.pos_sum.length
      ∧ exAutoState.neg_sum.length = bss.neg_sum.length)
    ∧ (BoundedSum.merge exAutoState exBadSummary).1 ≠ Except.ok () := by
  constructor
  · exact ⟨_, rfl, rfl, rfl⟩
  · have h : (BoundedSum.merge exAutoState exBadSummary).1
        = Except.error (DPError.invalidArgument
            "Merged ApproxBounds must have the same amount of bins.") := rfl
    rw [h]
    simp

/-- C10 (amended): on a manual-mode instance, Merge succeeds exactly when
the payload carries decodable bounded-sum data of matching partial-sum
lengths; it never compares bounds, epsilon or mode, so a payload built
under different clamp bounds merges successfully (in auto mode the
embedded histogram merge is an additional validation). -/
theorem merge_checks_only_shape (s : BoundedSum) (sm : Summary)
    (hmanual : s.approx_bounds = none) :
    ((BoundedSum.merge s sm).1 = Except.ok () ↔
      ∃ bss, sm.data = some (SummaryData.bs bss)
        ∧ s.pos_sum.length = bss.pos_sum.length
        ∧ s.neg_sum.length = bss.neg_sum.length)
    ∧ ∀ (binOf : ℚ → Nat) (eps lower upper eps2 lower2 upper2 : ℚ)
        (m m2 : Option Mechanism) (xs ys : List DPValue),
        s = List.foldl (BoundedSum.addEntry binOf)
              (BoundedSum.init eps lower upper m none) xs →
        (BoundedSum.merge s (BoundedSum.serialize
            (List.foldl (BoundedSum.addEntry binOf)
              (BoundedSum.init eps2 lower2 upper2 m2 none) ys))).1 = Except.ok () := by
  constructor
  · constructor
    · intro hok
      rcases hd : sm.data with _ | d
      · simp [BoundedSum.merge, hd] at hok
      · rcases d with bss | _
        · by_cases hlen : s.pos_sum.length = bss.pos_sum.length
              ∧ s.neg_sum.length = bss.neg_sum.length
          · exact ⟨bss, rfl, hlen.1, hlen.2⟩
          · simp [BoundedSum.merge, hd, hlen] at hok
        · simp [BoundedSum.merge, hd] at hok
    · rintro ⟨bss, hd, h1, h2⟩
      simp [BoundedSum.merge, hd, h1, h2, hmanual]
  · intro binOf eps lower upper eps2 lower2 upper2 m m2 xs ys hs
    subst hs
    rw [init_manual_eq, init_manual_eq, foldl_addEntry_manual, foldl_addEntry_manual]
    simp [BoundedSum.merge, BoundedSum.serialize]

/-- Witness for C10: a manual shard with bounds 0 to 10 accepts the
payload of a manual shard with bounds -5 to 5. -/
theorem merge_checks_only_shape_witness :
    (List.foldl (BoundedSum.addEntry binOf0)
        (BoundedSum.init 1 0 10 none none) [DPValue.num 3]).approx_bounds = none
    ∧ (BoundedSum.merge
        (List.foldl (BoundedSum.addEntry binOf0)
          (BoundedSum.init 1 0 10 none none) [DPValue.num 3])
        (BoundedSum.serialize
          (List.foldl (BoundedSum.addEntry binOf0)
            (BoundedSum.init 2 (-5) 5 none none) [DPValue.num 7]))).1 = Except.ok () :=
  ⟨rfl, (merge_checks_only_shape
      (List.foldl (BoundedSum.addEntry binOf0)
        (BoundedSum.init 1 0 10 none none) [DPValue.num 3])
      { data := none } rfl).2 binOf0 1 0 10 2 (-5) 5 none none
    [DPValue.num 3] [DPValue.num 7] rfl⟩

/-- A successfully built Laplace mechanism records exactly the epsilon
and sensitivity it was given. -/
theorem laplaceBuild_ok_eq (e se : ℚ) (m : Mechanism)
    (h : laplaceBuild e se = Except.ok m) :
    m = { epsilon := e, sensitivity := se } := by
  unfold laplaceBuild at h
  by_cases hc : e ≤ 0
  · rw [if_pos hc] at h; exact Except.noConfusion h
  · rw [if_neg hc] at h; cases h; rfl

/-- GenerateResult in auto mode, with a nonzero budget, successful bound
inference and a passing lower-bound check, reduces to the common tail on
the symmetrized-state. -/
theorem generateResult_auto_ok (o : Oracles) (s : BoundedSum) (ab : ApproxBounds)
    (l u b : ℚ) (hb : ¬ b = 0) (ha : s.approx_bounds = some ab)
    (hg : o.approxGenerateResult ab (b / 2) = Except.ok (l, u))
    (hchk : checkLowerBound o.tmax l = Except.ok ()) :
    s.generateResult o b
      = BoundedSum.finishResult o
          { s with lower := min l (-1 * u), upper := max u (-1 * l), mechanism := none }
          (o.computeFromPartials s.pos_sum s.neg_sum (min l (-1 * u)) (max u (-1 * l)))
          (b - b / 2)
          (some (o.getBoundingReport ab (min l (-1 * u)) (max u (-1 * l))))
          [Event.approxGen (b / 2)] := by
  simp only [BoundedSum.generateResult, if_neg hb, ha, hg, hchk]

/-- GenerateResult in auto mode fails before touching the state when the
inferred lower bound violates the bound check. -/
theorem generateResult_auto_checkfail (o : Oracles) (s : BoundedSum) (ab : ApproxBounds)
    (l u b : ℚ) (hb : ¬ b = 0) (ha : s.approx_bounds = some ab)
    (hg : o.approxGenerateResult ab (b / 2) = Except.ok (l, u))
    (hl : l < -o.tmax) :
    s.generateResult o b
      = (Except.error (DPError.invalidArgument lowerBoundMsg), s,
         [Event.approxGen (b / 2)]) := by
  have hc : checkLowerBound o.tmax l
      = Except.error (DPError.invalidArgument lowerBoundMsg) := by
    simp [checkLowerBound, neg_one_mul, hl]
  simp only [BoundedSum.generateResult, if_neg hb, ha, hg, hc]

/-- The common tail on a state without mechanism when the Laplace build
fails: the error is returned with the state as passed in. -/
theorem finishResult_mech_none_error (o : Oracles) (s : BoundedSum) (sum rem : ℚ)
    (rep : Option (ℚ × ℚ)) (tr : List Event) (e : DPError)
    (hmech : s.mechanism = none)
    (hL : laplaceBuild s.epsilon (max |s.lower| |s.upper|) = Except.error e) :
    BoundedSum.finishResult o s sum rem rep tr
      = (Except.error e, s,
         tr ++ [Event.mechBuild s.epsilon (max |s.lower| |s.upper|)]) := by
  simp only [BoundedSum.finishResult, hmech, hL]

/-- The common tail on a state without mechanism when the Laplace build
succeeds: the built mechanism is installed, the confidence interval and
the noise both use the remaining budget. -/
theorem finishResult_mech_none_ok (o : Oracles) (s : BoundedSum) (sum rem : ℚ)
    (rep : Option (ℚ × ℚ)) (tr : List Event) (m : Mechanism)
    (hmech : s.mechanism = none)
    (hL : laplaceBuild s.epsilon (max |s.lower| |s.upper|) = Except.ok m) :
    BoundedSum.finishResult o s sum rem rep tr
      = (Except.ok
          { value := some (if o.isIntegral then cppRound (o.addNoise m sum rem)
                     else o.addNoise m sum rem),
            bounding_report := rep,
            noise_confidence_interval :=
              match o.mechNoiseCI m kDefaultConfidenceLevel rem with
              | Except.ok c => some c
              | Except.error _ => none },
         { s with mechanism := some m },
         tr ++ [Event.mechBuild s.epsilon (max |s.lower| |s.upper|),
                Event.noiseCI kDefaultConfidenceLevel rem,
                Event.addNoise sum rem]) := by
  simp only [BoundedSum.finishResult, hmech, hL, BoundedSum.finishWithMechanism,
    BoundedSum.noiseCIImpl, List.append_assoc, List.cons_append, List.nil_append]

/-- C3: in auto-bounds mode GenerateResult sets the final bounds to
lower = min(inferred lower, -inferred upper) and
upper = max(inferred upper, -inferred lower), hence lower = -upper
afterwards, and the mechanism built for the noise uses sensitivity
max(abs lower, abs upper). -/
theorem auto_bounds_symmetrized (o : Oracles) (s : BoundedSum) (ab : ApproxBounds)
    (l u b : ℚ) (hb : b ≠ 0) (ha : s.approx_bounds = some ab)
    (hg : o.approxGenerateResult ab (b / 2) = Except.ok (l, u))
    (hchk : checkLowerBound o.tmax l = Except.ok ()) :
    (s.generateResult o b).2.1.lower = min l (-1 * u)
    ∧ (s.generateResult o b).2.1.upper = max u (-1 * l)
    ∧ (s.generateResult o b).2.1.lower = -(s.generateResult o b).2.1.upper
    ∧ (∀ e sens, Event.mechBuild e sens ∈ (s.generateResult o b).2.2 →
        sens = max |(s.generateResult o b).2.1.lower|
                   |(s.generateResult o b).2.1.upper|)
    ∧ (∀ m2, (s.generateResult o b).2.1.mechanism = some m2 →
        m2.sensitivity = max |(s.generateResult o b).2.1.lower|
                             |(s.generateResult o b).2.1.upper|) := by
  have hb' : ¬ b = 0 := hb
  rw [generateResult_auto_ok o s ab l u b hb' ha hg hchk]
  have hsym : min l (-1 * u) = -(max u (-1 * l)) := by
    rw [neg_one_mul, neg_one_mul, ← min_neg_neg, neg_neg, min_comm]
  rcases hL : laplaceBuild s.epsilon (max |min l (-1 * u)| |max u (-1 * l)|) with e | m
  · rw [finishResult_mech_none_error o _ _ _ _ _ e rfl hL]
    refine ⟨rfl, rfl, hsym, ?_, ?_⟩
    · intro e2 sens hmem
      simp at hmem
      simpa using hmem.2
    · intro m2 hm2
      exact Option.noConfusion hm2
  · rw [finishResult_mech_none_ok o _ _ _ _ _ m rfl hL]
    refine ⟨rfl, rfl, hsym, ?_, ?_⟩
    · intro e2 sens hmem
      simp at hmem
      simpa using hmem.2
    · intro m2 hm2
      have hm2' : m = m2 := Option.some.inj hm2
      rw [← hm2', laplaceBuild_ok_eq _ _ _ hL]

/-- Witness for C3: on a concrete auto-mode instance with inferred bounds
(-3, 5), the final bounds of GenerateResult satisfy lower = -upper. -/
theorem auto_bounds_symmetrized_witness :
    ((1 : ℚ) ≠ 0 ∧ exAutoState.approx_bounds = some exAb
      ∧ oracleEx.approxGenerateResult exAb (1 / 2) = Except.ok (-3, 5)
      ∧ checkLowerBound oracleEx.tmax (-3) = Except.ok ())
    ∧ (exAutoState.generateResult oracleEx 1).2.1.lower
        = -(exAutoState.generateResult oracleEx 1).2.1.upper :=
  ⟨⟨by norm_num, rfl, rfl, by norm_num [checkLowerBound, oracleEx]⟩,
    (auto_bounds_symmetrized oracleEx exAutoState exAb (-3) 5 1 (by norm_num) rfl rfl
      (by norm_num [checkLowerBound, oracleEx])).2.2.1⟩

/-- C9: in auto-bounds mode GenerateResult spends exactly half the budget
on bound inference through the histogram and uses exactly the remainder,
privacy_budget - privacy_budget / 2, both for the noise confidence
interval and for the noise addition. -/
theorem auto_budget_split (o : Oracles) (s : BoundedSum) (ab : ApproxBounds) (b : ℚ)
    (hb : b ≠ 0) (ha : s.approx_bounds = some ab) :
    Event.approxGen (b / 2) ∈ (s.generateResult o b).2.2
    ∧ (∀ bud, Event.approxGen bud ∈ (s.generateResult o b).2.2 → bud = b / 2)
    ∧ (∀ cl bud, Event.noiseCI cl bud ∈ (s.generateResult o b).2.2 → bud = b - b / 2)
    ∧ (∀ v bud, Event.addNoise v bud ∈ (s.generateResult o b).2.2 → bud = b - b / 2) := by
  have hb' : ¬ b = 0 := hb
  rcases hg : o.approxGenerateResult ab (b / 2) with e | lu
  · have heq : s.generateResult o b = (Except.error e, s, [Event.approxGen (b / 2)]) := by
      simp only [BoundedSum.generateResult, if_neg hb', ha, hg]
    rw [heq]
    simp
  · obtain ⟨l, u⟩ := lu
    rcases hchk : checkLowerBound o.tmax l with e2 | u2
    · have heq : s.generateResult o b
          = (Except.error e2, s, [Event.approxGen (b / 2)]) := by
        simp only [BoundedSum.generateResult, if_neg hb', ha, hg, hchk]
      rw [heq]
      simp
    · cases u2
      rw [generateResult_auto_ok o s ab l u b hb' ha hg hchk]
      rcases hL : laplaceBuild s.epsilon (max |min l (-1 * u)| |max u (-1 * l)|) with e3 | m
      · rw [finishResult_mech_none_error o _ _ _ _ _ e3 rfl hL]
        simp
      · rw [finishResult_mech_none_ok o _ _ _ _ _ m rfl hL]
        simp

/-- Witness for C9: on a concrete auto-mode instance the bound-inference
call receives exactly half of the unit budget. -/
theorem auto_budget_split_witness :
    ((1 : ℚ) ≠ 0 ∧ exAutoState.approx_bounds = some exAb)
    ∧ Event.approxGen (1 / 2) ∈ (exAutoState.generateResult oracleEx 1).2.2 :=
  ⟨⟨by norm_num, rfl⟩, (auto_budget_split oracleEx exAutoState exAb 1 (by norm_num) rfl).1⟩

/-- C7: the bound check fails with an invalid-argument error exactly when
the lower bound is below -max(T); the Builder applies it to a manual
lower bound before constructing the mechanism, and GenerateResult applies
the identical check to the inferred lower bound in auto mode, failing the
call and leaving the state unchanged on violation. -/
theorem check_lower_bound_applied (tm l : ℚ) (c : BuilderConfig) (o : Oracles)
    (s : BoundedSum) (ab : ApproxBounds) (u b : ℚ) :
    ((∃ msg, checkLowerBound tm l = Except.error (DPError.invalidArgument msg)) ↔ l < -tm)
    ∧ (c.tmax = tm → c.lowerOpt = some l → (∃ u0, c.upperOpt = some u0) → l < -tm →
        buildAlgorithm c = Except.error (DPError.invalidArgument lowerBoundMsg))
    ∧ (b ≠ 0 → s.approx_bounds = some ab → o.tmax = tm →
        o.approxGenerateResult ab (b / 2) = Except.ok (l, u) → l < -tm →
        (s.generateResult o b).1 = Except.error (DPError.invalidArgument lowerBoundMsg)
        ∧ (s.generateResult o b).2.1 = s) := by
  refine ⟨⟨?_, ?_⟩, ?_, ?_⟩
  · rintro ⟨msg, hmsg⟩
    by_contra hnot
    simp [checkLowerBound, neg_one_mul, hnot] at hmsg
  · intro hl
    exact ⟨lowerBoundMsg, by simp [checkLowerBound, neg_one_mul, hl]⟩
  · rintro htm hlo ⟨u0, hup⟩ hl
    have hc : checkLowerBound c.tmax l
        = Except.error (DPError.invalidArgument lowerBoundMsg) := by
      simp [checkLowerBound, neg_one_mul, htm, hl]
    simp only [buildAlgorithm, hlo, hup, hc]
  · intro hb ha htm hg hl
    rw [generateResult_auto_checkfail o s ab l u b hb ha hg (by rw [htm]; exact hl)]
    exact ⟨rfl, rfl⟩

/-- Witness for C7: a concrete inferred lower bound of -2000 against a
numeric limit of 1000 makes GenerateResult fail with the bound-check
error and leave the state unchanged. -/
theorem check_lower_bound_applied_witness :
    ((-2000 : ℚ) < -(1000 : ℚ) ∧ (1 : ℚ) ≠ 0
      ∧ exAutoState.approx_bounds = some exAb
      ∧ oracleBad.approxGenerateResult exAb (1 / 2) = Except.ok (-2000, 5))
    ∧ (exAutoState.generateResult oracleBad 1).1
        = Except.error (DPError.invalidArgument lowerBoundMsg)
    ∧ (exAutoState.generateResult oracleBad 1).2.1 = exAutoState :=
  ⟨⟨by norm_num, by norm_num, rfl, rfl⟩,
    (check_lower_bound_applied 1000 (-2000) cfgBad oracleBad exAutoState exAb 5 1).2.2
      (by norm_num) rfl rfl rfl (by norm_num)⟩

end DifferentialPrivacy
